import Mathlib

set_option maxRecDepth 16384

/-!
Verification of the Tsuchinoko repository against its specification.

Part 1: shallow embedding of the bridge worker
(`src/bridge/python/worker.py`, V1.7.0).  The worker is a single-threaded
dispatcher: one JSON request per stdin line, one JSON response per stdout
line.  We embed its value encoding, object store, command handlers and main
loop as pure Lean functions over an explicit state.

Part 2 (further below): shallow embedding of the Python-to-Rust generator
prototype (`src/compiler.py`, `src/ir_base.py`, `src/ir_nodes.py`,
`src/matcher.py`), whose emission threads a process-global node counter and
a process-global list of declared variables.
-/

namespace Worker

/-- Python runtime values as far as the worker manipulates them: the JSON
primitives, the containers the encoder walks, plus opaque objects, scalar-like
wrappers (objects exposing a callable `item()`, e.g. numpy scalars) and live
iterators (an iterator is held in the object store by `iter` and advanced by
`iter_next_batch`; we record its remaining elements).  Float payloads are
carried as rationals: the worker never computes with them, it only routes
them. -/
inductive Py where
  | none
  | bool (b : Bool)
  | int (n : Int)
  | float (q : Rat)
  | str (s : String)
  | list (xs : List Py)
  | tuple (xs : List Py)
  | dict (kvs : List (Py × Py))
  | obj (tag : String)
  | scalarLike (tag : String) (inner : Py)
  | iterator (elems : List Py)
  deriving Repr

/-- A JSON scalar carried inline by a `kind:"value"` wire value. -/
inductive Scalar where
  | null
  | bool (b : Bool)
  | int (n : Int)
  | float (q : Rat)
  | str (s : String)
  deriving Repr, DecidableEq

/-- The wire value format (`TnkValue`): inline scalars, recursively encoded
list/tuple/dict containers (`dict` items are key/value pairs), and handles
`\x7bid, type, repr, str, session_id\x7d`.  `session_id` is optional on the
wire (`tnk_val.get("session_id")`). -/
inductive TnkValue where
  | value (v : Scalar)
  | list (items : List TnkValue)
  | tuple (items : List TnkValue)
  | dict (items : List (TnkValue × TnkValue))
  | handle (id ty rep st : String) (session_id : Option String)
  deriving Repr

/-- An in-flight Python exception: its class name and message. -/
structure PyExc where
  ty : String
  msg : String
  deriving Repr, DecidableEq

/-- Python `str(e)` for an exception `e`: `KeyError` displays the repr of its
argument (quoted); the other exception classes used by the worker display the
message itself. -/
def excStr (e : PyExc) : String :=
  if e.ty = "KeyError" then "\x27" ++ e.msg ++ "\x27" else e.msg

/-- One session's object store: `handle_id -> object` in insertion order. -/
abbrev Objects := List (String × Py)

/-- The worker-global `_SESSIONS` map: `session_id -> objects` (the unused
`modules` sub-map is omitted). -/
abbrev Store := List (String × Objects)

/-- Worker state: the session map plus the source of fresh handle ids
(modelling the `uuid4` suffixes, which are unique per process). -/
structure WState where
  store : Store
  fresh : Nat
  deriving Repr

/-- Association-list update: replace the entry for `k` if present, else
append (Python dict assignment). -/
def assocSet (os : List (String × Py)) (k : String) (v : Py) : List (String × Py) :=
  match os.lookup k with
  | some _ => os.map (fun p => if p.1 = k then (k, v) else p)
  | none => os ++ [(k, v)]

/-- Association-list removal (Python `del d[k]`, guarded by `k in d`). -/
def assocRemove (os : List (String × Py)) (k : String) : List (String × Py) :=
  os.filter (fun p => p.1 ≠ k)

/-- The `get_session` side effect: create the session entry if absent. -/
def ensureSession (st : Store) (sid : String) : Store :=
  match st.lookup sid with
  | some _ => st
  | none => st ++ [(sid, [])]

/-- The objects map of a session (empty if the session does not exist). -/
def objectsOf (st : Store) (sid : String) : Objects :=
  (st.lookup sid).getD []

/-- Replace a session's objects map (the session is assumed present; callers
always `ensureSession` first, as the source always calls `get_session`). -/
def setObjects (st : Store) (sid : String) (os : Objects) : Store :=
  st.map (fun p => if p.1 = sid then (sid, os) else p)

/-- Insert one object under a session (dict assignment on the session's
objects map). -/
def storeInsert (st : Store) (sid k : String) (v : Py) : Store :=
  let st1 := ensureSession st sid
  setObjects st1 sid (assocSet (objectsOf st1 sid) k v)

/-- Python `type(v).__name__` for the modelled values. -/
def pyTypeName : Py → String
  | .none => "NoneType"
  | .bool _ => "bool"
  | .int _ => "int"
  | .float _ => "float"
  | .str _ => "str"
  | .list _ => "list"
  | .tuple _ => "tuple"
  | .dict _ => "dict"
  | .obj tag => tag
  | .scalarLike tag _ => tag
  | .iterator _ => "list_iterator"

/-- Python `f"\x7btype(obj)\x7d"`, i.e. `<class '...'>`. -/
def pyTypeStr (v : Py) : String :=
  "<class \x27" ++ pyTypeName v ++ "\x27>"

/-- A simple model of Python `repr` for the values that can reach the handle
branch of the encoder (opaque objects, wrappers, iterators); primitives get
their obvious rendering. -/
def pyRepr : Py → String
  | .none => "None"
  | .bool b => if b then "True" else "False"
  | .int n => toString n
  | .float q => toString q
  | .str s => "\x27" ++ s ++ "\x27"
  | .list _ => "[...]"
  | .tuple _ => "(...)"
  | .dict _ => "\x7b...\x7d"
  | .obj tag => "<" ++ tag ++ " object>"
  | .scalarLike tag _ => "<" ++ tag ++ " object>"
  | .iterator _ => "<list_iterator object>"

/-- A simple model of Python `str` on the same values (`str` of a string is
the string itself; objects fall back to their repr). -/
def pyStr : Py → String
  | .str s => s
  | v => pyRepr v

/-- Truncation applied to a handle's `repr` and `str` fields. -/
def truncate200 (s : String) : String :=
  if s.length > 200 then (s.take 197) ++ "..." else s

/-- Fresh handle id, `f"h_\x7buuid.uuid4().hex[:16]\x7d"`, modelled from the
per-process unique source. -/
def freshHandleId (n : Nat) : String := "h_" ++ toString n

/-- Fresh iterator handle id, `f"it_\x7buuid.uuid4().hex[:16]\x7d"`. -/
def freshIterId (n : Nat) : String := "it_" ++ toString n

mutual

/-- `encode_value(v, session_id)`: primitives inline (bool is tested before
int, as in the source); scalar-like wrappers are unwrapped via `item()`;
lists/tuples/dicts encode recursively; everything else becomes a new handle
registered in the session's object store, with truncated `repr`/`str`. -/
def encodeValue (v : Py) (sid : String) (w : WState) : TnkValue × WState :=
  match v with
  | .none => (.value .null, w)
  | .bool b => (.value (.bool b), w)
  | .int n => (.value (.int n), w)
  | .float q => (.value (.float q), w)
  | .scalarLike _ inner => encodeValue inner sid w
  | .str s => (.value (.str s), w)
  | .list xs =>
      let (its, w1) := encodeItems xs sid w
      (.list its, w1)
  | .tuple xs =>
      let (its, w1) := encodeItems xs sid w
      (.tuple its, w1)
  | .dict kvs =>
      let (its, w1) := encodePairs kvs sid w
      (.dict its, w1)
  | .obj tag =>
      let hid := freshHandleId w.fresh
      ((.handle hid (pyTypeName (Py.obj tag)) (truncate200 (pyRepr (Py.obj tag)))
          (truncate200 (pyStr (Py.obj tag))) (some sid)),
       ⟨storeInsert w.store sid hid (Py.obj tag), w.fresh + 1⟩)
  | .iterator es =>
      let hid := freshHandleId w.fresh
      ((.handle hid (pyTypeName (Py.iterator es)) (truncate200 (pyRepr (Py.iterator es)))
          (truncate200 (pyStr (Py.iterator es))) (some sid)),
       ⟨storeInsert w.store sid hid (Py.iterator es), w.fresh + 1⟩)

/-- Encoding of the elements of a list/tuple, left to right. -/
def encodeItems (xs : List Py) (sid : String) (w : WState) : List TnkValue × WState :=
  match xs with
  | [] => ([], w)
  | x :: rest =>
      let (tv, w1) := encodeValue x sid w
      let (tvs, w2) := encodeItems rest sid w1
      (tv :: tvs, w2)

/-- Encoding of dict items (`\x7b"key": ..., "value": ...\x7d` pairs), in
dict order, key before value. -/
def encodePairs (kvs : List (Py × Py)) (sid : String) (w : WState) : List (TnkValue × TnkValue) × WState :=
  match kvs with
  | [] => ([], w)
  | (k, v) :: rest =>
      let (tk, w1) := encodeValue k sid w
      let (tv, w2) := encodeValue v sid w1
      let (tvs, w3) := encodePairs rest sid w2
      ((tk, tv) :: tvs, w3)

end

mutual

/-- `decode_value(tnk_val, session_id)`: inline scalars decode to themselves;
a handle is looked up in the requesting session's store (the handle's own
`session_id` is inspected but deliberately not acted on in V1.7.0), raising
`KeyError("StaleHandle: ...")` when absent; containers decode recursively;
any other kind raises `ValueError`.  The only store effect is the
`get_session` ensure. -/
def decodeValue (tv : TnkValue) (sid : String) (w : WState) : Except PyExc Py × WState :=
  match tv with
  | .value .null => (.ok .none, w)
  | .value (.bool b) => (.ok (.bool b), w)
  | .value (.int n) => (.ok (.int n), w)
  | .value (.float q) => (.ok (.float q), w)
  | .value (.str s) => (.ok (.str s), w)
  | .handle hid _ _ _ _ =>
      let st := ensureSession w.store sid
      match (objectsOf st sid).lookup hid with
      | some v => (.ok v, ⟨st, w.fresh⟩)
      | none =>
          (.error ⟨"KeyError", "StaleHandle: " ++ hid ++ " (Session: " ++ sid ++ ")"⟩,
           ⟨st, w.fresh⟩)
  | .list items =>
      match decodeItems items sid w with
      | (.ok vs, w1) => (.ok (.list vs), w1)
      | (.error e, w1) => (.error e, w1)
  | .tuple items =>
      match decodeItems items sid w with
      | (.ok vs, w1) => (.ok (.tuple vs), w1)
      | (.error e, w1) => (.error e, w1)
  | .dict items =>
      match decodePairs items sid w with
      | (.ok kvs, w1) => (.ok (.dict kvs), w1)
      | (.error e, w1) => (.error e, w1)

/-- Decoding of the elements of a list/tuple, stopping at the first failure
(the comprehension raises through). -/
def decodeItems (items : List TnkValue) (sid : String) (w : WState) : Except PyExc (List Py) × WState :=
  match items with
  | [] => (.ok [], w)
  | x :: rest =>
      match decodeValue x sid w with
      | (.error e, w1) => (.error e, w1)
      | (.ok v, w1) =>
          match decodeItems rest sid w1 with
          | (.error e, w2) => (.error e, w2)
          | (.ok vs, w2) => (.ok (v :: vs), w2)

/-- Decoding of dict items, key before value per item. -/
def decodePairs (items : List (TnkValue × TnkValue)) (sid : String) (w : WState) : Except PyExc (List (Py × Py)) × WState :=
  match items with
  | [] => (.ok [], w)
  | (tk, tv) :: rest =>
      match decodeValue tk sid w with
      | (.error e, w1) => (.error e, w1)
      | (.ok k, w1) =>
          match decodeValue tv sid w1 with
          | (.error e, w2) => (.error e, w2)
          | (.ok v, w2) =>
              match decodePairs rest sid w2 with
              | (.error e, w3) => (.error e, w3)
              | (.ok kvs, w3) => (.ok ((k, v) :: kvs), w3)

end

mutual

/-- A value is a JSON-representable primitive or a container built purely
out of such (claim C8's class of values). -/
def isPrimLike : Py → Bool
  | .none => true
  | .bool _ => true
  | .int _ => true
  | .float _ => true
  | .str _ => true
  | .list xs => isPrimLikeList xs
  | .tuple xs => isPrimLikeList xs
  | .dict kvs => isPrimLikePairs kvs
  | .obj _ => false
  | .scalarLike _ _ => false
  | .iterator _ => false

/-- All elements primitive-like. -/
def isPrimLikeList : List Py → Bool
  | [] => true
  | x :: rest => isPrimLike x && isPrimLikeList rest

/-- All keys and values primitive-like. -/
def isPrimLikePairs : List (Py × Py) → Bool
  | [] => true
  | (k, v) :: rest => isPrimLike k && isPrimLike v && isPrimLikePairs rest

end

/-- Python `v == 0` on the values a decoded slice argument can be: true for
`0`, `0.0` and `False`; false for every non-numeric value. -/
def pyEqZero : Py → Bool
  | .int n => n = 0
  | .float q => q = 0
  | .bool b => !b
  | _ => false

/-- Python `int(v)` on the values a resolved slice-argument handle can hold:
ints and bools convert, floats truncate toward zero, numeric strings parse;
everything else raises. -/
def pyToInt : Py → Except PyExc Int
  | .int n => .ok n
  | .bool b => .ok (if b then 1 else 0)
  | .float q => .ok (Int.tdiv q.num q.den)
  | .str s =>
      match s.toInt? with
      | some n => .ok n
      | none =>
          .error ⟨"ValueError", "invalid literal for int() with base 10: " ++ s⟩
  | v => .error ⟨"TypeError", "int() argument must not be " ++ pyTypeName v⟩

/-- The `FORBIDDEN_CALLS` security set. -/
def isForbiddenName (name : String) : Bool :=
  name = "eval" || name = "exec" || name = "globals" || name = "locals"

/-- Python `name.startswith("_")`, phrased over the character list. -/
def startsWithUnderscore (name : String) : Bool :=
  decide ("_".data <+: name.data)

/-- `is_forbidden_target`: the last component of the target path split on
`.` (`parts[-1] if parts else target_str`) is checked against the forbidden
set; the split is phrased over the character list. -/
def isForbiddenTarget (target : String) : Bool :=
  isForbiddenName ⟨(target.data.splitOn (Char.ofNat 46)).getLastD target.data⟩

/-- The `"StaleHandle" in str(e)` substring test used by the handlers'
`except ValueError` clauses (Python `in` on strings is substring
containment). -/
def containsStale (s : String) : Bool :=
  decide ("StaleHandle".data <:+: s.data)

/-- The error payload of an error response: `code`, optional `py_type`, and
`message` (the `traceback` and `op` echo fields, pure debugging metadata, are
not modelled). -/
structure ErrInfo where
  code : String
  py_type : Option String
  message : String
  deriving Repr

/-- A worker response line: `\x7bkind:"ok", req_id, value, meta\x7d` (meta is
the `done` flag of batched iteration when present) or
`\x7bkind:"error", req_id, error\x7d`, as built by `make_response`. -/
inductive Resp where
  | ok (req_id : Option String) (value : Option TnkValue) (meta : Option Bool)
  | error (req_id : Option String) (e : ErrInfo)
  deriving Repr

/-- The error code of a response, if it is an error response. -/
def Resp.code : Resp → Option String
  | .ok _ _ _ => Option.none
  | .error _ e => some e.code

/-- A request target as `resolve_target` distinguishes them: a
`\x7bkind:"module", module: name\x7d` dict, a handle-id string, or anything
else (rejected as an invalid format). -/
inductive Target where
  | moduleRef (name : String)
  | handleId (hid : String)
  | invalid
  deriving Repr

/-- The ambient Python runtime the worker reflects into: import resolution
for dotted paths (`resolve_callable`), `hasattr`/`getattr`, calling a
callable, item access, extended slicing and `iter`.  These live in CPython,
outside the repository; the worker's own logic is quantified over them. -/
structure PyEnv where
  resolve : String → Except PyExc Py
  hasAttr : Py → String → Bool
  getAttr : Py → String → Except PyExc Py
  call : Py → List Py → List (String × Py) → Except PyExc Py
  getItem : Py → Py → Except PyExc Py
  getSlice : Py → Py → Py → Py → Except PyExc Py
  mkIter : Py → Except PyExc (List Py)

/-- `resolve_target`: a module reference goes through `resolve_callable`
(which calls `get_session` first, creating the session entry); a string is a
handle id looked up in the requesting session's store, raising
`ValueError("StaleHandle: ...")` when absent; anything else raises
`ValueError("Invalid target format...")`. -/
def resolveTarget (env : PyEnv) (t : Target) (sid : String) (w : WState) :
    Except PyExc Py × WState :=
  match t with
  | .moduleRef name => (env.resolve name, ⟨ensureSession w.store sid, w.fresh⟩)
  | .handleId hid =>
      let st := ensureSession w.store sid
      match (objectsOf st sid).lookup hid with
      | some v => (.ok v, ⟨st, w.fresh⟩)
      | none => (.error ⟨"ValueError", "StaleHandle: " ++ hid⟩, ⟨st, w.fresh⟩)
  | .invalid => (.error ⟨"ValueError", "Invalid target format"⟩, w)

/-- Decoding of the keyword arguments dict, in dict order. -/
def decodeKwargs (kwargs : List (String × TnkValue)) (sid : String) (w : WState) :
    Except PyExc (List (String × Py)) × WState :=
  match kwargs with
  | [] => (.ok [], w)
  | (k, tv) :: rest =>
      match decodeValue tv sid w with
      | (.error e, w1) => (.error e, w1)
      | (.ok v, w1) =>
          match decodeKwargs rest sid w1 with
          | (.error e, w2) => (.error e, w2)
          | (.ok vs, w2) => (.ok ((k, v) :: vs), w2)

/-- Handlers return `Except PyExc Resp`: `.ok` is a response the handler
built itself, `.error` is a Python exception that escaped the handler (the
main loop turns it into a `WorkerCrash` response). -/
abbrev HResult := Except PyExc Resp × WState

/-- `handle_call_function`: arguments are decoded before anything else (so a
decoding exception escapes), then the security check on the target's last
dotted component, then `resolve_callable` (with explicit `ImportError` /
`AttributeError` reporting) and the call, with the result encoded. -/
def handleCallFunction (env : PyEnv) (rq : Option String) (sid target : String)
    (argsRaw : List TnkValue) (kwargsRaw : List (String × TnkValue)) (w : WState) : HResult :=
  match decodeItems argsRaw sid w with
  | (.error e, w1) => (.error e, w1)
  | (.ok args, w1) =>
  match decodeKwargs kwargsRaw sid w1 with
  | (.error e, w2) => (.error e, w2)
  | (.ok kwargs, w2) =>
  if isForbiddenTarget target then
    (.ok (.error rq ⟨"SecurityViolation", none, "Forbidden function call: " ++ target⟩), w2)
  else
    let w3 : WState := ⟨ensureSession w2.store sid, w2.fresh⟩
    match env.resolve target with
    | .error e =>
        if e.ty = "ImportError" then
          (.ok (.error rq ⟨"PythonException", some "ImportError",
            "Module implementation not found: " ++ target⟩), w3)
        else if e.ty = "AttributeError" then
          (.ok (.error rq ⟨"PythonException", some "AttributeError",
            "Attribute not found: " ++ target⟩), w3)
        else
          (.ok (.error rq ⟨"PythonException", some e.ty, excStr e⟩), w3)
    | .ok f =>
        match env.call f args kwargs with
        | .error e => (.ok (.error rq ⟨"PythonException", some e.ty, excStr e⟩), w3)
        | .ok r =>
            let (tv, w4) := encodeValue r sid w3
            (.ok (.ok rq (some tv) Option.none), w4)

/-- `handle_call_method`: arguments are decoded first (decoding exceptions
escape), then the forbidden-name check on the method name (note: no
leading-underscore check here), then target resolution (`except ValueError`
maps to `StaleHandle`/`ProtocolError`; any other exception escapes), then
`hasattr`/`getattr` and the call.  `getattr` itself runs outside the `try`,
so an exception it raises escapes. -/
def handleCallMethod (env : PyEnv) (rq : Option String) (sid : String) (target : Target)
    (method : String) (argsRaw : List TnkValue) (kwargsRaw : List (String × TnkValue))
    (w : WState) : HResult :=
  match decodeItems argsRaw sid w with
  | (.error e, w1) => (.error e, w1)
  | (.ok args, w1) =>
  match decodeKwargs kwargsRaw sid w1 with
  | (.error e, w2) => (.error e, w2)
  | (.ok kwargs, w2) =>
  if isForbiddenName method then
    (.ok (.error rq ⟨"SecurityViolation", none, "Forbidden method call: " ++ method⟩), w2)
  else
    match resolveTarget env target sid w2 with
    | (.error e, w3) =>
        if e.ty = "ValueError" then
          if containsStale (excStr e) then
            (.ok (.error rq ⟨"StaleHandle", none, excStr e⟩), w3)
          else
            (.ok (.error rq ⟨"ProtocolError", none, excStr e⟩), w3)
        else (.error e, w3)
    | (.ok o, w3) =>
        if !(env.hasAttr o method) then
          (.ok (.error rq ⟨"PythonException", some "AttributeError",
            pyTypeStr o ++ " has no attribute " ++ method⟩), w3)
        else
          match env.getAttr o method with
          | .error e => (.error e, w3)
          | .ok f =>
              match env.call f args kwargs with
              | .error e => (.ok (.error rq ⟨"PythonException", some e.ty, excStr e⟩), w3)
              | .ok r =>
                  let (tv, w4) := encodeValue r sid w3
                  (.ok (.ok rq (some tv) Option.none), w4)

/-- `handle_get_attribute`: leading-underscore names and forbidden names are
rejected with `SecurityViolation` before anything else; then target
resolution (`except ValueError` as above), then `getattr` inside a generic
`try`, with the result encoded. -/
def handleGetAttribute (env : PyEnv) (rq : Option String) (sid : String) (target : Target)
    (name : String) (w : WState) : HResult :=
  if startsWithUnderscore name then
    (.ok (.error rq ⟨"SecurityViolation", none, "Access to private attributes is forbidden"⟩), w)
  else if isForbiddenName name then
    (.ok (.error rq ⟨"SecurityViolation", none, "Forbidden attribute access: " ++ name⟩), w)
  else
    match resolveTarget env target sid w with
    | (.error e, w1) =>
        if e.ty = "ValueError" then
          if containsStale (excStr e) then
            (.ok (.error rq ⟨"StaleHandle", none, excStr e⟩), w1)
          else
            (.ok (.error rq ⟨"ProtocolError", none, excStr e⟩), w1)
        else (.error e, w1)
    | (.ok o, w1) =>
        match env.getAttr o name with
        | .error e => (.ok (.error rq ⟨"PythonException", some e.ty, excStr e⟩), w1)
        | .ok r =>
            let (tv, w2) := encodeValue r sid w1
            (.ok (.ok rq (some tv) Option.none), w2)

/-- `handle_get_item`: the key is decoded before the `try` (a decoding
exception escapes), then target resolution, then `obj[key]` with the result
encoded. -/
def handleGetItem (env : PyEnv) (rq : Option String) (sid : String) (target : Target)
    (keyRaw : TnkValue) (w : WState) : HResult :=
  match decodeValue keyRaw sid w with
  | (.error e, w1) => (.error e, w1)
  | (.ok key, w1) =>
  match resolveTarget env target sid w1 with
  | (.error e, w2) =>
      if e.ty = "ValueError" then
        if containsStale (excStr e) then
          (.ok (.error rq ⟨"StaleHandle", none, excStr e⟩), w2)
        else
          (.ok (.error rq ⟨"ProtocolError", none, excStr e⟩), w2)
      else (.error e, w2)
  | (.ok o, w2) =>
      match env.getItem o key with
      | .error e => (.ok (.error rq ⟨"PythonException", some e.ty, excStr e⟩), w2)
      | .ok r =>
          let (tv, w3) := encodeValue r sid w2
          (.ok (.ok rq (some tv) Option.none), w3)

/-- The wire kind string of a `TnkValue` (for the invalid-slice-arg
message). -/
def TnkValue.kindName : TnkValue → String
  | .value _ => "value"
  | .list _ => "list"
  | .tuple _ => "tuple"
  | .dict _ => "dict"
  | .handle _ _ _ _ _ => "handle"

/-- A JSON scalar viewed as the Python value it decodes to. -/
def Scalar.toPy : Scalar → Py
  | .null => .none
  | .bool b => .bool b
  | .int n => .int n
  | .float q => .float q
  | .str s => .str s

/-- `decode_slice_arg`: an inline value passes through unchanged; a handle is
resolved (the `KeyError` of a stale handle escapes into the surrounding
`try`) and converted with `int()`, any conversion failure becoming a
`TypeError`; any other kind raises `ValueError`. -/
def decodeSliceArg (arg : TnkValue) (sid : String) (w : WState) : Except PyExc Py × WState :=
  match arg with
  | .value s => (.ok s.toPy, w)
  | .handle hid ty rep st hsid =>
      match decodeValue (.handle hid ty rep st hsid) sid w with
      | (.error e, w1) => (.error e, w1)
      | (.ok v, w1) =>
          match pyToInt v with
          | .ok n => (.ok (.int n), w1)
          | .error _ =>
              (.error ⟨"TypeError",
                "Slice argument handle must resolve to int, got " ++ pyTypeStr v⟩, w1)
  | other => (.error ⟨"ValueError", "Invalid slice arg kind: " ++ other.kindName⟩, w)

/-- `handle_slice`: the three bounds are decoded inside a `try` whose generic
handler reports `TypeMismatch`; a decoded step equal to `0` (Python `==`) is
answered `PythonException`/`ValueError` with message
"slice step cannot be zero" before the target is ever looked up; only then is
the target fetched from the session store and sliced. -/
def handleSlice (env : PyEnv) (rq : Option String) (sid target : String)
    (startRaw stopRaw stepRaw : TnkValue) (w : WState) : HResult :=
  match decodeSliceArg startRaw sid w with
  | (.error e, w1) => (.ok (.error rq ⟨"TypeMismatch", none, excStr e⟩), w1)
  | (.ok sv, w1) =>
  match decodeSliceArg stopRaw sid w1 with
  | (.error e, w2) => (.ok (.error rq ⟨"TypeMismatch", none, excStr e⟩), w2)
  | (.ok ev, w2) =>
  match decodeSliceArg stepRaw sid w2 with
  | (.error e, w3) => (.ok (.error rq ⟨"TypeMismatch", none, excStr e⟩), w3)
  | (.ok stv, w3) =>
  if pyEqZero stv then
    (.ok (.error rq ⟨"PythonException", some "ValueError", "slice step cannot be zero"⟩), w3)
  else
    let st := ensureSession w3.store sid
    match (objectsOf st sid).lookup target with
    | Option.none =>
        (.ok (.error rq ⟨"StaleHandle", none, "Handle " ++ target ++ " not found"⟩),
         ⟨st, w3.fresh⟩)
    | some o =>
        match env.getSlice o sv ev stv with
        | .error e => (.ok (.error rq ⟨"PythonException", some e.ty, excStr e⟩), ⟨st, w3.fresh⟩)
        | .ok r =>
            let (tv, w4) := encodeValue r sid ⟨st, w3.fresh⟩
            (.ok (.ok rq (some tv) Option.none), w4)

/-- `handle_iter`: the target is fetched from the session store
(`StaleHandle` if absent), `iter(obj)` is taken, the new iterator is stored
under a fresh `it_` id, and the handle record is answered (untruncated
`repr`/`str`, as in the source). -/
def handleIter (env : PyEnv) (rq : Option String) (sid target : String) (w : WState) : HResult :=
  let st := ensureSession w.store sid
  match (objectsOf st sid).lookup target with
  | Option.none =>
      (.ok (.error rq ⟨"StaleHandle", none, "Handle " ++ target ++ " not found"⟩),
       ⟨st, w.fresh⟩)
  | some o =>
      match env.mkIter o with
      | .error e => (.ok (.error rq ⟨"PythonException", some e.ty, excStr e⟩), ⟨st, w.fresh⟩)
      | .ok elems =>
          let itid := freshIterId w.fresh
          let it := Py.iterator elems
          (.ok (.ok rq (some (.handle itid (pyTypeName it) (pyRepr it) (pyStr it) (some sid)))
            Option.none),
           ⟨setObjects st sid (assocSet (objectsOf st sid) itid it), w.fresh + 1⟩)

/-- `handle_iter_next_batch`: up to `batch_size` elements are drawn with
`next` and encoded; `done` becomes true exactly when `StopIteration` fires
within the loop (i.e. when fewer than `batch_size` elements remained); the
iterator in the store has advanced past the returned elements.  A
non-positive `batch_size` makes `range(batch_size)` empty, so nothing is
drawn and `done` stays false; `next` on a non-iterator raises `TypeError`
(caught and reported) unless the loop is empty. -/
def handleIterNextBatch (rq : Option String) (sid target : String)
    (batchSize : Option Int) (w : WState) : HResult :=
  let b : Nat := (batchSize.getD 1000).toNat
  let st := ensureSession w.store sid
  match (objectsOf st sid).lookup target with
  | Option.none =>
      (.ok (.error rq ⟨"StaleHandle", none, "Handle " ++ target ++ " not found"⟩),
       ⟨st, w.fresh⟩)
  | some (Py.iterator elems) =>
      let (its, w1) := encodeItems (elems.take b) sid ⟨st, w.fresh⟩
      let st2 := setObjects w1.store sid
        (assocSet (objectsOf w1.store sid) target (Py.iterator (elems.drop b)))
      (.ok (.ok rq (some (.list its)) (some (decide (elems.length < b)))), ⟨st2, w1.fresh⟩)
  | some o =>
      if b = 0 then
        (.ok (.ok rq (some (.list [])) (some false)), ⟨st, w.fresh⟩)
      else
        (.ok (.error rq ⟨"PythonException", some "TypeError",
          "\x27" ++ pyTypeName o ++ "\x27 object is not an iterator"⟩), ⟨st, w.fresh⟩)

/-- `handle_delete`: the id is removed from the session's objects map if
present, and the response is always `ok` with inline `None`. -/
def handleDelete (rq : Option String) (sid target : String) (w : WState) : HResult :=
  let st := ensureSession w.store sid
  let st2 := setObjects st sid (assocRemove (objectsOf st sid) target)
  (.ok (.ok rq (some (.value .null)) Option.none), ⟨st2, w.fresh⟩)

/-- A parsed request, one constructor per dispatcher entry; `unknown` is a
well-formed JSON object whose `cmd` is not in the dispatcher. -/
inductive Cmd where
  | callFunction (rq : Option String) (sid target : String)
      (args : List TnkValue) (kwargs : List (String × TnkValue))
  | callMethod (rq : Option String) (sid : String) (target : Target) (method : String)
      (args : List TnkValue) (kwargs : List (String × TnkValue))
  | getAttribute (rq : Option String) (sid : String) (target : Target) (name : String)
  | getItem (rq : Option String) (sid : String) (target : Target) (key : TnkValue)
  | slice (rq : Option String) (sid target : String) (start stop step : TnkValue)
  | iter (rq : Option String) (sid target : String)
  | iterNextBatch (rq : Option String) (sid target : String) (batchSize : Option Int)
  | delete (rq : Option String) (sid target : String)
  | unknown (rq : Option String) (name : String)

/-- The `DISPATCHER` table applied to one request. -/
def processCmd (env : PyEnv) : Cmd → WState → HResult
  | .callFunction rq sid t a k, w => handleCallFunction env rq sid t a k w
  | .callMethod rq sid t m a k, w => handleCallMethod env rq sid t m a k w
  | .getAttribute rq sid t n, w => handleGetAttribute env rq sid t n w
  | .getItem rq sid t k, w => handleGetItem env rq sid t k w
  | .slice rq sid t a b c, w => handleSlice env rq sid t a b c w
  | .iter rq sid t, w => handleIter env rq sid t w
  | .iterNextBatch rq sid t b, w => handleIterNextBatch rq sid t b w
  | .delete rq sid t, w => handleDelete rq sid t w
  | .unknown rq name, w =>
      (.ok (.error rq ⟨"ProtocolError", none, "Unknown command " ++ name⟩), w)

/-- One stdin line as the main loop classifies it: blank after strip
(skipped), invalid JSON, or a parsed request. -/
inductive Line where
  | blank
  | badJson
  | request (c : Cmd)

/-- Whether a line strips to empty. -/
def Line.isBlank : Line → Bool
  | .blank => true
  | _ => false

/-- The body of the main loop for one line: blank lines produce no response;
invalid JSON produces a `ProtocolError`; a dispatched request produces its
handler's response, or a `WorkerCrash` response if an exception escaped the
handler.  Exactly one response is printed per non-blank line. -/
def processLine (env : PyEnv) (l : Line) (w : WState) : Option Resp × WState :=
  match l with
  | .blank => (Option.none, w)
  | .badJson => (some (.error Option.none ⟨"ProtocolError", none, "Invalid JSON"⟩), w)
  | .request c =>
      match processCmd env c w with
      | (.ok r, w1) => (some r, w1)
      | (.error e, w1) => (some (.error Option.none ⟨"WorkerCrash", none, excStr e⟩), w1)

/-- The worker main loop over a whole stdin: it processes every line in
order and never exits on a request-level error. -/
def mainLoop (env : PyEnv) : List Line → WState → List Resp × WState
  | [], w => ([], w)
  | l :: rest, w =>
      match processLine env l w with
      | (Option.none, w1) => mainLoop env rest w1
      | (some r, w1) =>
          let (rs, w2) := mainLoop env rest w1
          (r :: rs, w2)

/-- The client side of batched iteration as the spec describes it: call
`iter_next_batch` repeatedly and stop at the first response with
`meta.done = true` (or at any unexpected response).  `fuel` bounds the number
of calls. -/
def driveIter (rq : Option String) (sid tid : String) (b : Option Int) :
    Nat → WState → List (List TnkValue × Bool) × WState
  | 0, w => ([], w)
  | fuel + 1, w =>
      match handleIterNextBatch rq sid tid b w with
      | (.ok (.ok _ (some (.list items)) (some done)), w1) =>
          if done then ([(items, true)], w1)
          else
            let (rest, w2) := driveIter rq sid tid b fuel w1
            ((items, false) :: rest, w2)
      | (_, w1) => ([], w1)

mutual

/-- Specification-side description of the encoder's output on
primitive-like values (claim C8's class): the pure wire value, with no
store effect.  On values outside that class it is a placeholder and is
never used. -/
def encWire : Py → TnkValue
  | .none => .value .null
  | .bool b => .value (.bool b)
  | .int n => .value (.int n)
  | .float q => .value (.float q)
  | .str s => .value (.str s)
  | .list xs => .list (encWireList xs)
  | .tuple xs => .tuple (encWireList xs)
  | .dict kvs => .dict (encWirePairs kvs)
  | .scalarLike _ inner => encWire inner
  | .obj _ => .value .null
  | .iterator _ => .value .null

/-- Elementwise `encWire`. -/
def encWireList : List Py → List TnkValue
  | [] => []
  | x :: rest => encWire x :: encWireList rest

/-- Pairwise `encWire`. -/
def encWirePairs : List (Py × Py) → List (TnkValue × TnkValue)
  | [] => []
  | (k, v) :: rest => (encWire k, encWire v) :: encWirePairs rest

end

/-- A concrete ambient runtime for closed evaluations: imports fail,
objects expose no attributes, nothing is callable, subscriptable or
iterable.  This matches CPython on the concrete values these evaluations
use (an `int` has no attribute named `_secret` or `copy`). -/
def envNone : PyEnv where
  resolve := fun t => .error ⟨"ImportError", "No module named " ++ t⟩
  hasAttr := fun _ _ => false
  getAttr := fun v n => .error ⟨"AttributeError",
    pyTypeStr v ++ " object has no attribute " ++ n⟩
  call := fun v _ _ => .error ⟨"TypeError", pyTypeStr v ++ " object is not callable"⟩
  getItem := fun v _ => .error ⟨"TypeError", pyTypeStr v ++ " object is not subscriptable"⟩
  getSlice := fun v _ _ _ => .error ⟨"TypeError", pyTypeStr v ++ " object is not subscriptable"⟩
  mkIter := fun v => .error ⟨"TypeError", pyTypeStr v ++ " object is not iterable"⟩

end Worker

namespace Gen

/-!
Shallow embedding of the Python-to-Rust generator (`src/compiler.py`,
`src/ir_base.py`, `src/ir_nodes.py`, `src/matcher.py`).  The mutable
class-level state of `TsuchinokoNode` (`id_counter`) and `TsuchinokoAssign`
(`declared_vars`) lives for the whole process and is threaded explicitly as
`EmitState`.  Matching a node allocates the next `node_id`; children are
matched lazily during the parent's emission, so ids are assigned in
depth-first emission order.  The modelled AST subset covers names, constants,
comparison chains, assignments, expression statements and `if`, which is
what the claims about the generator exercise.
-/

/-- Comparison operators, named after the `ast` classes that
`TsuchinokoCompare.emit_operator` dispatches on. -/
inductive CmpOp where
  | Eq | NotEq | Lt | LtE | Gt | GtE
  deriving Repr, DecidableEq

/-- The operator table of `TsuchinokoCompare.emit_operator`. -/
def CmpOp.emit (op : CmpOp) : String :=
  match op with
  | CmpOp.Eq => "=="
  | CmpOp.NotEq => "!="
  | CmpOp.Lt => "<"
  | CmpOp.LtE => "<="
  | CmpOp.Gt => ">"
  | CmpOp.GtE => ">="

/-- Expressions of the modelled AST subset.  A `compare` carries the left
operand and the parallel `ops`/`comparators` lists as pairs. -/
inductive PExpr where
  | name (id : String)
  | constInt (n : Int)
  | constStr (s : String)
  | compare (left : PExpr) (rest : List (CmpOp × PExpr))
  deriving Repr

/-- Statements of the modelled AST subset. -/
inductive PStmt where
  | assign (target : PExpr) (value : PExpr)
  | ifStmt (test : PExpr) (body orelse : List PStmt)
  | exprStmt (e : PExpr)
  deriving Repr

/-- The process-global generator state: `TsuchinokoNode.id_counter` and
`TsuchinokoAssign.declared_vars`.  Neither is ever reset. -/
structure EmitState where
  counter : Nat
  declared : List String
  deriving Repr, DecidableEq

/-- `TsuchinokoNode.__init__`: take the current counter as this node's id
and increment. -/
def fresh (s : EmitState) : Nat × EmitState :=
  (s.counter, { s with counter := s.counter + 1 })

/-- Four spaces per indent level. -/
def indentOf (n : Nat) : String :=
  String.join (List.replicate n "    ")

mutual

/-- `matcher.match_node(expr).emit_expression()`: a `Name` emits
`str(node_id) + name`; a constant emits `str(value)` (strings quoted); a
`Compare` emits the comparisons joined with `" && "`, every one of them
using the ORIGINAL left operand (the source never advances `left` to the
previous comparator). -/
def matchEmitExpr : PExpr → EmitState → String × EmitState
  | .name id, s =>
      let (nid, s1) := fresh s
      (toString nid ++ id, s1)
  | .constInt n, s =>
      let (_, s1) := fresh s
      (toString n, s1)
  | .constStr str, s =>
      let (_, s1) := fresh s
      ("\"" ++ str ++ "\"", s1)
  | .compare left rest, s =>
      let (_, s1) := fresh s
      let (l, s2) := matchEmitExpr left s1
      let (parts, s3) := emitComparisons l rest s2
      (String.intercalate " && " parts, s3)

/-- The comparator loop of `TsuchinokoCompare.emit_rust`: each comparator is
matched and emitted, paired against the fixed left string. -/
def emitComparisons (l : String) : List (CmpOp × PExpr) → EmitState → List String × EmitState
  | [], s => ([], s)
  | (op, c) :: rest, s =>
      let (r, s1) := matchEmitExpr c s
      let (more, s2) := emitComparisons l rest s1
      ((l ++ " " ++ op.emit ++ " " ++ r) :: more, s2)

end

mutual

/-- `matcher.match_node(stmt, indent_level).emit_statement()`: the node is
allocated, emitted, and prefixed with its indentation.  An assignment whose
emitted target string is not yet in `declared_vars` becomes `let mut ...`
and is recorded; otherwise a plain assignment.  An `if` without `orelse` is
prefixed with its node id (a debug slip kept faithfully); with `orelse` it
emits the two blocks. -/
def matchEmitStmt (lvl : Nat) : PStmt → EmitState → String × EmitState
  | .assign target value, s =>
      let (_, s1) := fresh s
      let (t, s2) := matchEmitExpr target s1
      let (v, s3) := matchEmitExpr value s2
      if s3.declared.contains t then
        (indentOf lvl ++ t ++ " = " ++ v ++ ";", s3)
      else
        (indentOf lvl ++ "let mut " ++ t ++ " = " ++ v ++ ";",
         { s3 with declared := s3.declared ++ [t] })
  | .ifStmt test body orelse, s =>
      let (nid, s1) := fresh s
      let ind := indentOf lvl
      let (tst, s2) := matchEmitExpr test s1
      let (bodyLines, s3) := matchEmitBlock (lvl + 1) body s2
      let bodyStr := String.intercalate "\n" bodyLines
      match orelse with
      | [] =>
          (ind ++ toString nid ++ " if " ++ tst ++ " \x7b\n" ++ bodyStr ++ "\n" ++ ind ++ "\x7d",
           s3)
      | _ =>
          let (elseLines, s4) := matchEmitBlock (lvl + 1) orelse s3
          (ind ++ "if " ++ tst ++ " \x7b\n" ++ bodyStr ++ "\n" ++ ind ++ "\x7d else \x7b\n" ++
             String.intercalate "\n" elseLines ++ "\n" ++ ind ++ "\x7d",
           s4)
  | .exprStmt e, s =>
      let (_, s1) := fresh s
      let (x, s2) := matchEmitExpr e s1
      (indentOf lvl ++ x ++ ";", s2)

/-- Emission of the statements of a block, in order. -/
def matchEmitBlock (lvl : Nat) : List PStmt → EmitState → List String × EmitState
  | [], s => ([], s)
  | st :: rest, s =>
      let (line, s1) := matchEmitStmt lvl st s
      let (lines, s2) := matchEmitBlock lvl rest s1
      (line :: lines, s2)

end

/-- The `if __name__ == "__main__":` pattern test of
`TsuchinokoModule.emit_rust` (left operand, first op, first comparator). -/
def isMainGuard : PStmt → Bool
  | .ifStmt (PExpr.compare (PExpr.name n) ((CmpOp.Eq, PExpr.constStr m) :: _)) _ _ =>
      n = "__name__" && m = "__main__"
  | _ => false

/-- The `isinstance(stmt, ast.If) and isinstance(stmt.test, ast.Compare)`
classification of the module loop. -/
def isIfWithCompareTest : PStmt → Bool
  | .ifStmt (PExpr.compare _ _) _ _ => true
  | _ => false

/-- The statement loop of `TsuchinokoModule.emit_rust`: the main guard
builds `fn main()` (prefixed by a `setup();` call when setup statements were
already accumulated); other `if`s with comparison tests are appended to the
functions list; everything else (in the modelled subset) joins the setup
body. -/
def moduleLoop : List PStmt → List String × List String → EmitState →
    (List String × List String) × EmitState
  | [], acc, s => (acc, s)
  | stmt :: rest, (funcs, setup), s =>
      if isMainGuard stmt then
        match stmt with
        | .ifStmt _ body _ =>
            let head := if setup.length ≠ 0 then ["    setup();"] else []
            let (lines, s1) := matchEmitBlock 1 body s
            let mainFunc := "fn main() \x7b\n" ++ String.intercalate "\n" (head ++ lines) ++ "\n\x7d"
            moduleLoop rest (funcs ++ [mainFunc], setup) s1
        | _ => moduleLoop rest (funcs, setup) s
      else if isIfWithCompareTest stmt then
        let (line, s1) := matchEmitStmt 1 stmt s
        moduleLoop rest (funcs ++ [line], setup) s1
      else
        let (line, s1) := matchEmitStmt 1 stmt s
        moduleLoop rest (funcs, setup ++ [line]) s1

/-- `compile_python_to_rust` after parsing: match the module (allocating its
node id), run the statement loop, and assemble `fn setup()` and the
function list. -/
def compileProgram (body : List PStmt) (s : EmitState) : String × EmitState :=
  let (_, s1) := fresh s
  let ((funcs, setup), s2) := moduleLoop body ([], []) s1
  let setupFunc :=
    if setup.isEmpty then ""
    else "fn setup() \x7b\n" ++ String.intercalate "\n" setup ++ "\n\x7d"
  let out1 := if setupFunc ≠ "" then setupFunc ++ "\n\n" else ""
  let out2 := if funcs.isEmpty then out1 else out1 ++ String.intercalate "\n\n" funcs
  (out2, s2)

/-- The generator state at interpreter start: counter `0`, nothing
declared. -/
def initState : EmitState := ⟨0, []⟩

end Gen

/-!
Theorems.  First a toolbox of lemmas about the store operations, the
decoder and the encoder; then, for each claim, its theorem (with witness or
counterexample where required).
-/

open Worker

theorem lookup_cons_pair {α : Type} (a k : String) (v : α) (l : List (String × α)) :
    List.lookup a ((k, v) :: l) = if a = k then some v else List.lookup a l := by
  rw [List.lookup_cons]
  cases h : a == k <;> simp only [h] <;> simp_all

theorem lookup_append_pair {α : Type} (a : String) (l1 l2 : List (String × α)) :
    List.lookup a (l1 ++ l2) = (List.lookup a l1).or (List.lookup a l2) := by
  induction l1 with
  | nil => simp [List.lookup]
  | cons p rest ih =>
      obtain ⟨k, v⟩ := p
      simp only [List.cons_append, lookup_cons_pair]
      by_cases h : a = k <;> simp [h, ih]

theorem lookup_mapSet {α : Type} (l : List (String × α)) (k k2 : String) (v : α) :
    (l.map (fun p => if p.1 = k then (k, v) else p)).lookup k2 =
      (l.lookup k2).map (fun old => if k2 = k then v else old) := by
  induction l with
  | nil => simp [List.lookup]
  | cons p rest ih =>
      obtain ⟨k1, v1⟩ := p
      by_cases h1 : k1 = k
      · subst h1
        simp only [List.map_cons, if_pos rfl, lookup_cons_pair]
        by_cases h2 : k2 = k1 <;> simp [lookup_cons_pair, h2, ih]
      · simp only [List.map_cons, if_neg h1, lookup_cons_pair]
        by_cases h2 : k2 = k1
        · subst h2; simp [h1]
        · simp [h2, ih]

theorem lookup_setObjects (st : Store) (sid sid2 : String) (os : Objects) :
    (setObjects st sid os).lookup sid2 =
      (st.lookup sid2).map (fun old => if sid2 = sid then os else old) :=
  lookup_mapSet st sid sid2 os

theorem lookup_assocSet (os : Objects) (k k2 : String) (v : Py) :
    (assocSet os k v).lookup k2 = if k2 = k then some v else os.lookup k2 := by
  unfold assocSet
  cases h : os.lookup k with
  | some old =>
      rw [lookup_mapSet]
      by_cases h2 : k2 = k
      · subst h2; simp [h]
      · simp [h2]
  | none =>
      rw [lookup_append_pair]
      by_cases h2 : k2 = k
      · subst h2; simp [h, lookup_cons_pair, List.lookup]
      · have hb : (k2 == k) = false := beq_eq_false_iff_ne.mpr h2
        simp [h2, lookup_cons_pair, List.lookup, hb]

theorem lookup_ensureSession (st : Store) (sid sid2 : String) :
    (ensureSession st sid).lookup sid2 =
      if sid2 = sid then some (objectsOf st sid) else st.lookup sid2 := by
  unfold ensureSession objectsOf
  cases h : st.lookup sid with
  | some os =>
      by_cases h2 : sid2 = sid
      · subst h2; simp [h]
      · simp [h2]
  | none =>
      rw [lookup_append_pair]
      by_cases h2 : sid2 = sid
      · subst h2; simp [h, lookup_cons_pair, List.lookup]
      · have hb : (sid2 == sid) = false := beq_eq_false_iff_ne.mpr h2
        simp [h2, lookup_cons_pair, List.lookup, hb]

theorem lookup_ensureSession_self (st : Store) (sid : String) :
    (ensureSession st sid).lookup sid = some (objectsOf st sid) := by
  simp [lookup_ensureSession]

theorem objectsOf_ensureSession (st : Store) (sid sid2 : String) :
    objectsOf (ensureSession st sid) sid2 = objectsOf st sid2 := by
  unfold objectsOf
  rw [lookup_ensureSession]
  by_cases h : sid2 = sid
  · subst h; simp [objectsOf]
  · simp [h]

theorem ensureSession_of_present (st : Store) (sid : String) (os : Objects)
    (h : st.lookup sid = some os) : ensureSession st sid = st := by
  unfold ensureSession
  rw [h]

theorem ensureSession_idem (st : Store) (sid : String) :
    ensureSession (ensureSession st sid) sid = ensureSession st sid :=
  ensureSession_of_present _ _ _ (lookup_ensureSession_self st sid)

theorem setObjects_setObjects (st : Store) (sid : String) (os1 os2 : Objects) :
    setObjects (setObjects st sid os1) sid os2 = setObjects st sid os2 := by
  unfold setObjects
  rw [List.map_map]
  apply List.map_congr_left
  intro p _
  by_cases h : p.1 = sid <;> simp [h, Function.comp]

theorem assocRemove_idem (os : Objects) (k : String) :
    assocRemove (assocRemove os k) k = assocRemove os k := by
  unfold assocRemove
  rw [List.filter_filter]
  simp

theorem objectsOf_setObjects (st : Store) (sid sid2 : String) (os : Objects) :
    objectsOf (setObjects st sid os) sid2 =
      if sid2 = sid then (if (st.lookup sid).isSome then os else [])
      else objectsOf st sid2 := by
  unfold objectsOf
  rw [lookup_setObjects]
  by_cases h : sid2 = sid
  · subst h
    cases hl : st.lookup sid2 <;> simp [hl]
  · simp [h]

mutual

theorem encode_prim : ∀ (v : Py), isPrimLike v = true → ∀ (sid : String) (w : WState),
    encodeValue v sid w = (encWire v, w)
  | .none, _, _, _ => rfl
  | .bool _, _, _, _ => rfl
  | .int _, _, _, _ => rfl
  | .float _, _, _, _ => rfl
  | .str _, _, _, _ => rfl
  | .list xs, h, sid, w => by
      have hl : isPrimLikeList xs = true := by simpa [isPrimLike] using h
      simp [encodeValue, encWire, encode_prim_list xs hl sid w]
  | .tuple xs, h, sid, w => by
      have hl : isPrimLikeList xs = true := by simpa [isPrimLike] using h
      simp [encodeValue, encWire, encode_prim_list xs hl sid w]
  | .dict kvs, h, sid, w => by
      have hl : isPrimLikePairs kvs = true := by simpa [isPrimLike] using h
      simp [encodeValue, encWire, encode_prim_pairs kvs hl sid w]
  | .obj _, h, _, _ => by simp [isPrimLike] at h
  | .scalarLike _ _, h, _, _ => by simp [isPrimLike] at h
  | .iterator _, h, _, _ => by simp [isPrimLike] at h

theorem encode_prim_list : ∀ (xs : List Py), isPrimLikeList xs = true →
    ∀ (sid : String) (w : WState), encodeItems xs sid w = (encWireList xs, w)
  | [], _, _, _ => rfl
  | x :: rest, h, sid, w => by
      have h2 := h
      simp only [isPrimLikeList, Bool.and_eq_true] at h2
      obtain ⟨hx, hr⟩ := h2
      simp [encodeItems, encWireList, encode_prim x hx sid w, encode_prim_list rest hr sid w]

theorem encode_prim_pairs : ∀ (kvs : List (Py × Py)), isPrimLikePairs kvs = true →
    ∀ (sid : String) (w : WState), encodePairs kvs sid w = (encWirePairs kvs, w)
  | [], _, _, _ => rfl
  | (k, v) :: rest, h, sid, w => by
      have h2 := h
      simp only [isPrimLikePairs, Bool.and_eq_true] at h2
      obtain ⟨⟨hk, hv⟩, hr⟩ := h2
      simp [encodePairs, encWirePairs, encode_prim k hk sid w, encode_prim v hv sid w,
        encode_prim_pairs rest hr sid w]

end

mutual

theorem decode_encWire : ∀ (v : Py), isPrimLike v = true → ∀ (sid : String) (w : WState),
    decodeValue (encWire v) sid w = (.ok v, w)
  | .none, _, _, _ => rfl
  | .bool _, _, _, _ => rfl
  | .int _, _, _, _ => rfl
  | .float _, _, _, _ => rfl
  | .str _, _, _, _ => rfl
  | .list xs, h, sid, w => by
      have hl : isPrimLikeList xs = true := by simpa [isPrimLike] using h
      simp [encWire, decodeValue, decode_encWire_list xs hl sid w]
  | .tuple xs, h, sid, w => by
      have hl : isPrimLikeList xs = true := by simpa [isPrimLike] using h
      simp [encWire, decodeValue, decode_encWire_list xs hl sid w]
  | .dict kvs, h, sid, w => by
      have hl : isPrimLikePairs kvs = true := by simpa [isPrimLike] using h
      simp [encWire, decodeValue, decode_encWire_pairs kvs hl sid w]
  | .obj _, h, _, _ => by simp [isPrimLike] at h
  | .scalarLike _ _, h, _, _ => by simp [isPrimLike] at h
  | .iterator _, h, _, _ => by simp [isPrimLike] at h

theorem decode_encWire_list : ∀ (xs : List Py), isPrimLikeList xs = true →
    ∀ (sid : String) (w : WState), decodeItems (encWireList xs) sid w = (.ok xs, w)
  | [], _, _, _ => rfl
  | x :: rest, h, sid, w => by
      have h2 := h
      simp only [isPrimLikeList, Bool.and_eq_true] at h2
      obtain ⟨hx, hr⟩ := h2
      simp [encWireList, decodeItems, decode_encWire x hx sid w,
        decode_encWire_list rest hr sid w]

theorem decode_encWire_pairs : ∀ (kvs : List (Py × Py)), isPrimLikePairs kvs = true →
    ∀ (sid : String) (w : WState), decodePairs (encWirePairs kvs) sid w = (.ok kvs, w)
  | [], _, _, _ => rfl
  | (k, v) :: rest, h, sid, w => by
      have h2 := h
      simp only [isPrimLikePairs, Bool.and_eq_true] at h2
      obtain ⟨⟨hk, hv⟩, hr⟩ := h2
      simp [encWirePairs, decodePairs, decode_encWire k hk sid w, decode_encWire v hv sid w,
        decode_encWire_pairs rest hr sid w]

end

mutual

theorem decodeValue_store : ∀ (tv : TnkValue) (sid : String) (w : WState) (sid2 : String),
    objectsOf (decodeValue tv sid w).2.store sid2 = objectsOf w.store sid2 ∧
    (decodeValue tv sid w).2.fresh = w.fresh
  | .value s, sid, w, sid2 => by cases s <;> exact ⟨rfl, rfl⟩
  | .handle hid ty rep st hs, sid, w, sid2 => by
      simp only [decodeValue]
      cases h : (objectsOf (ensureSession w.store sid) sid).lookup hid <;>
        simp [h, objectsOf_ensureSession]
  | .list items, sid, w, sid2 => by
      have hi := decodeItems_store items sid w sid2
      simp only [decodeValue]
      rcases hd : decodeItems items sid w with ⟨r, w1⟩
      rw [hd] at hi
      cases r <;> simpa using hi
  | .tuple items, sid, w, sid2 => by
      have hi := decodeItems_store items sid w sid2
      simp only [decodeValue]
      rcases hd : decodeItems items sid w with ⟨r, w1⟩
      rw [hd] at hi
      cases r <;> simpa using hi
  | .dict items, sid, w, sid2 => by
      have hi := decodePairs_store items sid w sid2
      simp only [decodeValue]
      rcases hd : decodePairs items sid w with ⟨r, w1⟩
      rw [hd] at hi
      cases r <;> simpa using hi

theorem decodeItems_store : ∀ (items : List TnkValue) (sid : String) (w : WState) (sid2 : String),
    objectsOf (decodeItems items sid w).2.store sid2 = objectsOf w.store sid2 ∧
    (decodeItems items sid w).2.fresh = w.fresh
  | [], _, _, _ => ⟨rfl, rfl⟩
  | x :: rest, sid, w, sid2 => by
      have hx := decodeValue_store x sid w sid2
      simp only [decodeItems]
      rcases hd : decodeValue x sid w with ⟨r, w1⟩
      rw [hd] at hx
      cases r with
      | error e => simpa using hx
      | ok v =>
          have hr := decodeItems_store rest sid w1 sid2
          rcases hd2 : decodeItems rest sid w1 with ⟨r2, w2⟩
          rw [hd2] at hr
          cases r2 <;> simp_all

theorem decodePairs_store : ∀ (items : List (TnkValue × TnkValue)) (sid : String) (w : WState)
    (sid2 : String),
    objectsOf (decodePairs items sid w).2.store sid2 = objectsOf w.store sid2 ∧
    (decodePairs items sid w).2.fresh = w.fresh
  | [], _, _, _ => ⟨rfl, rfl⟩
  | (tk, tv) :: rest, sid, w, sid2 => by
      have hk := decodeValue_store tk sid w sid2
      simp only [decodePairs]
      rcases hd : decodeValue tk sid w with ⟨r, w1⟩
      rw [hd] at hk
      cases r with
      | error e => simpa using hk
      | ok k =>
          have hv := decodeValue_store tv sid w1 sid2
          rcases hd2 : decodeValue tv sid w1 with ⟨r2, w2⟩
          rw [hd2] at hv
          cases r2 with
          | error e => simp_all
          | ok v =>
              have hr := decodePairs_store rest sid w2 sid2
              rcases hd3 : decodePairs rest sid w2 with ⟨r3, w3⟩
              rw [hd3] at hr
              cases r3 <;> simp_all

end

theorem decodeKwargs_store (kwargs : List (String × TnkValue)) (sid : String) (w : WState)
    (sid2 : String) :
    objectsOf (decodeKwargs kwargs sid w).2.store sid2 = objectsOf w.store sid2 ∧
    (decodeKwargs kwargs sid w).2.fresh = w.fresh := by
  induction kwargs generalizing w with
  | nil => exact ⟨rfl, rfl⟩
  | cons p rest ih =>
      obtain ⟨k, tv⟩ := p
      have hv := decodeValue_store tv sid w sid2
      simp only [decodeKwargs]
      rcases hd : decodeValue tv sid w with ⟨r, w1⟩
      rw [hd] at hv
      cases r with
      | error e => simpa using hv
      | ok v =>
          have hr := ih w1
          rcases hd2 : decodeKwargs rest sid w1 with ⟨r2, w2⟩
          rw [hd2] at hr
          cases r2 <;> simp_all

theorem decodeSliceArg_store (arg : TnkValue) (sid : String) (w : WState) (sid2 : String) :
    objectsOf (decodeSliceArg arg sid w).2.store sid2 = objectsOf w.store sid2 ∧
    (decodeSliceArg arg sid w).2.fresh = w.fresh := by
  cases arg with
  | value s => exact ⟨rfl, rfl⟩
  | list items => exact ⟨rfl, rfl⟩
  | tuple items => exact ⟨rfl, rfl⟩
  | dict items => exact ⟨rfl, rfl⟩
  | handle hid ty rep st hs =>
      have hv := decodeValue_store (.handle hid ty rep st hs) sid w sid2
      simp only [decodeSliceArg]
      rcases hd : decodeValue (.handle hid ty rep st hs) sid w with ⟨r, w1⟩
      rw [hd] at hv
      cases r with
      | error e => simpa using hv
      | ok v => cases hp : pyToInt v <;> simp only [hp] <;> simpa using hv

/-- C8: encoding a primitive value, or a list/tuple/dict built purely of
primitives, allocates no handle (the worker state is returned unchanged), and
decoding the encoding — in any session and from any state — returns exactly
the original value. -/
theorem claim_c8_roundtrip_identity (v : Py) (sid sid2 : String) (w w2 : WState)
    (h : isPrimLike v = true) :
    (encodeValue v sid w).2 = w ∧
    decodeValue (encodeValue v sid w).1 sid2 w2 = (.ok v, w2) := by
  have he := encode_prim v h sid w
  exact ⟨by rw [he], by rw [he]; exact decode_encWire v h sid2 w2⟩

/-- Witness for C8 at a concrete nested value. -/
theorem claim_c8_roundtrip_identity_witness :
    (isPrimLike (Py.dict [(Py.str "a", Py.list [Py.int 1, Py.bool true, Py.float 2]),
      (Py.none, Py.tuple [Py.str "xyz"])]) = true) ∧
    ((encodeValue (Py.dict [(Py.str "a", Py.list [Py.int 1, Py.bool true, Py.float 2]),
        (Py.none, Py.tuple [Py.str "xyz"])]) "s" ⟨[], 0⟩).2 = ⟨[], 0⟩ ∧
      decodeValue (encodeValue (Py.dict [(Py.str "a", Py.list [Py.int 1, Py.bool true,
        Py.float 2]), (Py.none, Py.tuple [Py.str "xyz"])]) "s" ⟨[], 0⟩).1 "other"
        ⟨[("q", [])], 7⟩ =
        (.ok (Py.dict [(Py.str "a", Py.list [Py.int 1, Py.bool true, Py.float 2]),
          (Py.none, Py.tuple [Py.str "xyz"])]), ⟨[("q", [])], 7⟩)) :=
  ⟨rfl, claim_c8_roundtrip_identity _ "s" "other" ⟨[], 0⟩ ⟨[("q", [])], 7⟩ rfl⟩

/-- C9: the main loop emits exactly one response per non-blank input line —
malformed JSON, unknown commands and handler-escaping exceptions all produce
a response (ProtocolError or WorkerCrash) rather than terminating, and the
loop then continues with the remaining lines. -/
theorem claim_c9_one_response_per_line (env : PyEnv) (ls : List Line) (w : WState) :
    (mainLoop env ls w).1.length = (ls.filter (fun l => !l.isBlank)).length := by
  induction ls generalizing w with
  | nil => rfl
  | cons l rest ih =>
      cases l with
      | blank => simpa [mainLoop, processLine, Line.isBlank] using ih w
      | badJson => simp [mainLoop, processLine, Line.isBlank, ih]
      | request c =>
          rcases hp : processCmd env c w with ⟨r, w1⟩
          cases r with
          | ok resp => simp [mainLoop, processLine, hp, Line.isBlank, ih]
          | error e => simp [mainLoop, processLine, hp, Line.isBlank, ih]

theorem objectsOf_eq_of_lookup (st : Store) (sid : String) (os : Objects)
    (h : st.lookup sid = some os) : objectsOf st sid = os := by
  unfold objectsOf
  rw [h]
  rfl

/-- C10: `delete` always answers ok with inline None — also when the id is
absent and whatever the session — it only ever removes the addressed id from
the addressed session, and a second identical delete is a no-op returning
the same response and state. -/
theorem claim_c10_delete_idempotent (rq : Option String) (sid target : String) (w : WState) :
    (handleDelete rq sid target w).1 =
      .ok (Resp.ok rq (some (.value .null)) Option.none) ∧
    (∀ sid2, objectsOf (handleDelete rq sid target w).2.store sid2 =
      if sid2 = sid then assocRemove (objectsOf w.store sid2) target
      else objectsOf w.store sid2) ∧
    handleDelete rq sid target (handleDelete rq sid target w).2 =
      handleDelete rq sid target w := by
  have hE : (ensureSession w.store sid).lookup sid = some (objectsOf w.store sid) :=
    lookup_ensureSession_self w.store sid
  have hO : objectsOf (ensureSession w.store sid) sid = objectsOf w.store sid :=
    objectsOf_ensureSession w.store sid sid
  refine ⟨rfl, ?_, ?_⟩
  · intro sid2
    simp only [handleDelete]
    rw [objectsOf_setObjects]
    by_cases h2 : sid2 = sid
    · subst h2; simp [hE, hO]
    · simp [h2, objectsOf_ensureSession]
  · simp only [handleDelete]
    have hL : (setObjects (ensureSession w.store sid) sid
        (assocRemove (objectsOf (ensureSession w.store sid) sid) target)).lookup sid =
        some (assocRemove (objectsOf (ensureSession w.store sid) sid) target) := by
      rw [lookup_setObjects, hE]; simp
    rw [ensureSession_of_present _ _ _ hL]
    rw [objectsOf_eq_of_lookup _ _ _ hL, assocRemove_idem, setObjects_setObjects]

/-- C7: when the three slice bounds decode successfully and the decoded step
equals 0 (Python `==`: `0`, `0.0` or `False`), the worker answers
`PythonException`/`ValueError` with message "slice step cannot be zero",
without ever fetching or slicing the target (the answer and final state do
not depend on the target id, the stored objects are unchanged in every
session, and the ambient runtime is never consulted). -/
theorem claim_c7_slice_step_zero (env : PyEnv) (rq : Option String) (sid target : String)
    (a b c : TnkValue) (w w1 w2 w3 : WState) (va vb vc : Py)
    (ha : decodeSliceArg a sid w = (.ok va, w1))
    (hb : decodeSliceArg b sid w1 = (.ok vb, w2))
    (hc : decodeSliceArg c sid w2 = (.ok vc, w3))
    (hz : pyEqZero vc = true) :
    handleSlice env rq sid target a b c w =
      (.ok (.error rq ⟨"PythonException", some "ValueError", "slice step cannot be zero"⟩),
       w3) ∧
    ∀ sid2, objectsOf w3.store sid2 = objectsOf w.store sid2 := by
  constructor
  · simp [handleSlice, ha, hb, hc, hz]
  · intro sid2
    have h1 := (decodeSliceArg_store a sid w sid2).1
    have h2 := (decodeSliceArg_store b sid w1 sid2).1
    have h3 := (decodeSliceArg_store c sid w2 sid2).1
    rw [ha] at h1; rw [hb] at h2; rw [hc] at h3
    simp only at h1 h2 h3
    rw [h3, h2, h1]

/-- Witness for C7: an inline `arr[1:None:0]` slice request. -/
theorem claim_c7_slice_step_zero_witness :
    decodeSliceArg (.value (.int 1)) "s" ⟨[], 0⟩ = (.ok (.int 1), ⟨[], 0⟩) ∧
    decodeSliceArg (.value .null) "s" ⟨[], 0⟩ = (.ok .none, ⟨[], 0⟩) ∧
    decodeSliceArg (.value (.int 0)) "s" ⟨[], 0⟩ = (.ok (.int 0), ⟨[], 0⟩) ∧
    pyEqZero (.int 0) = true ∧
    handleSlice envNone Option.none "s" "harr" (.value (.int 1)) (.value .null)
      (.value (.int 0)) ⟨[], 0⟩ =
      (.ok (.error Option.none ⟨"PythonException", some "ValueError",
        "slice step cannot be zero"⟩), ⟨[], 0⟩) ∧
    objectsOf (⟨[], 0⟩ : WState).store "s" = objectsOf (⟨[], 0⟩ : WState).store "s" :=
  ⟨rfl, rfl, rfl, rfl,
   (claim_c7_slice_step_zero envNone Option.none "s" "harr" (.value (.int 1)) (.value .null)
     (.value (.int 0)) ⟨[], 0⟩ ⟨[], 0⟩ ⟨[], 0⟩ ⟨[], 0⟩ (.int 1) .none (.int 0)
     rfl rfl rfl rfl).1,
   (claim_c7_slice_step_zero envNone Option.none "s" "harr" (.value (.int 1)) (.value .null)
     (.value (.int 0)) ⟨[], 0⟩ ⟨[], 0⟩ ⟨[], 0⟩ ⟨[], 0⟩ (.int 1) .none (.int 0)
     rfl rfl rfl rfl).2 "s"⟩

/-- C1 (code bug): compiling the same one-line source `x = 1` twice in one
process yields different Rust text, because `TsuchinokoNode.id_counter` is
never reset and node ids leak into the emitted identifiers.  The first
compilation emits `let mut 2x = 1;`, the second `let mut 6x = 1;`. -/
theorem claim_c1_repeat_compile_differs :
    ((Gen.compileProgram [Gen.PStmt.assign (Gen.PExpr.name "x") (Gen.PExpr.constInt 1)]
        Gen.initState).1 = "fn setup() \x7b\n    let mut 2x = 1;\n\x7d\n\n") ∧
    ((Gen.compileProgram [Gen.PStmt.assign (Gen.PExpr.name "x") (Gen.PExpr.constInt 1)]
        (Gen.compileProgram [Gen.PStmt.assign (Gen.PExpr.name "x") (Gen.PExpr.constInt 1)]
          Gen.initState).2).1 = "fn setup() \x7b\n    let mut 6x = 1;\n\x7d\n\n") ∧
    ("fn setup() \x7b\n    let mut 2x = 1;\n\x7d\n\n" : String) ≠
      "fn setup() \x7b\n    let mut 6x = 1;\n\x7d\n\n" :=
  ⟨rfl, rfl, by decide⟩

/-- C2 (code bug): for a name first bound in both branches of an `if` and
used after the block, the generator emits fresh `let mut` declarations
scoped INSIDE each branch (under distinct id-prefixed names `4x`, `7x`) and
the use after the block (`10x`) refers to a name that is never declared: no
pre-declaration in the enclosing block, and no `Option`-wrapping anywhere in
the output. -/
theorem claim_c2_no_hoisting :
    ((Gen.compileProgram
        [Gen.PStmt.ifStmt (Gen.PExpr.name "c")
           [Gen.PStmt.assign (Gen.PExpr.name "x") (Gen.PExpr.constInt 1)]
           [Gen.PStmt.assign (Gen.PExpr.name "x") (Gen.PExpr.constInt 2)],
         Gen.PStmt.exprStmt (Gen.PExpr.name "x")] Gen.initState).1 =
      "fn setup() \x7b\n    if 2c \x7b\n        let mut 4x = 1;\n    \x7d else \x7b\n        let mut 7x = 2;\n    \x7d\n    10x;\n\x7d\n\n") ∧
    ¬ ("Option".data <:+:
      (Gen.compileProgram
        [Gen.PStmt.ifStmt (Gen.PExpr.name "c")
           [Gen.PStmt.assign (Gen.PExpr.name "x") (Gen.PExpr.constInt 1)]
           [Gen.PStmt.assign (Gen.PExpr.name "x") (Gen.PExpr.constInt 2)],
         Gen.PStmt.exprStmt (Gen.PExpr.name "x")] Gen.initState).1.data) :=
  ⟨rfl, by decide⟩

/-- C5 (code bug): the chained comparison `0 < 15 < 10` is emitted as
`0 < 15 && 0 < 10` — the FIRST operand is compared against every comparator
instead of adjacent pairs, so the claimed (and Python-semantics) form
`0 < 15 && 15 < 10` is not what is generated; the repository's own
`v1_6_0_chained_comparison_test.py` expects the adjacent-pairs result. -/
theorem claim_c5_chained_comparison_not_adjacent :
    ((Gen.matchEmitExpr (Gen.PExpr.compare (Gen.PExpr.constInt 0)
        [(Gen.CmpOp.Lt, Gen.PExpr.constInt 15), (Gen.CmpOp.Lt, Gen.PExpr.constInt 10)])
        Gen.initState).1 = "0 < 15 && 0 < 10") ∧
    ("0 < 15 && 0 < 10" : String) ≠ "0 < 15 && 15 < 10" :=
  ⟨rfl, by decide⟩

/-- Counterexample to C3 as stated: a `call_method` request whose method
name has a leading underscore is NOT answered with `SecurityViolation`; the
worker proceeds into reflection (`hasattr`) and reports a plain
`AttributeError`-flavoured `PythonException`. -/
theorem claim_c3_counterexample_underscore_method :
    ((handleCallMethod envNone Option.none "s" (Target.handleId "h1") "_secret" [] []
        ⟨[("s", [("h1", Py.int 7)])], 0⟩).1 =
      .ok (Resp.error Option.none ⟨"PythonException", some "AttributeError",
        "<class \x27int\x27> has no attribute _secret"⟩)) ∧
    ("PythonException" : String) ≠ "SecurityViolation" :=
  ⟨rfl, by decide⟩

/-- Counterexample to C4 as stated: a handle created in session `s1`,
referenced from session `s2` NESTED inside the args of a `call_method`,
makes `decode_value` raise `KeyError` before the handler's `try`; the main
loop catches it and answers `WorkerCrash`, not `StaleHandle`. -/
theorem claim_c4_counterexample_nested_stale :
    ((processLine envNone
        (Line.request (Cmd.callMethod Option.none "s2" (Target.handleId "t2") "copy"
          [TnkValue.handle "h1" "int" "7" "7" (some "s1")] []))
        ⟨[("s1", [("h1", Py.int 7)]), ("s2", [("t2", Py.list [])])], 0⟩).1 =
      some (Resp.error Option.none ⟨"WorkerCrash", Option.none,
        "\x27StaleHandle: h1 (Session: s2)\x27"⟩)) ∧
    ("WorkerCrash" : String) ≠ "StaleHandle" :=
  ⟨rfl, by decide⟩

/-- Counterexample to C6 as stated: with batch size 0 on a one-element
iterator, the call returns zero elements with `done = false` and leaves the
state completely unchanged — so (the worker being deterministic) successive
calls never return the element and never emit `done = true`. -/
theorem claim_c6_counterexample_batch_zero :
    handleIterNextBatch Option.none "s" "it" (some 0)
        ⟨[("s", [("it", Py.iterator [Py.int 5])])], 0⟩ =
      (.ok (Resp.ok Option.none (some (.list [])) (some false)),
       ⟨[("s", [("it", Py.iterator [Py.int 5])])], 0⟩) := by
  rfl

theorem forbidden_not_underscore (name : String) (h : isForbiddenName name = true) :
    startsWithUnderscore name = false := by
  unfold isForbiddenName at h
  simp only [Bool.or_eq_true, decide_eq_true_eq] at h
  rcases h with ((h | h) | h) | h <;> subst h <;> decide

theorem containsStale_append (rest : String) :
    containsStale ("StaleHandle" ++ rest) = true := by
  unfold containsStale
  simp only [decide_eq_true_eq]
  exact ⟨[], rest.data, by simp [String.data_append]⟩

theorem containsStale_colon (hid : String) :
    containsStale ("StaleHandle: " ++ hid) = true := by
  have h0 : ("StaleHandle: " : String) = "StaleHandle" ++ ": " := by decide
  have h : "StaleHandle: " ++ hid = "StaleHandle" ++ (": " ++ hid) := by
    rw [h0, String.append_assoc]
  rw [h]
  exact containsStale_append (": " ++ hid)

/-- C3 (amended): the forbidden-name set (`eval`, `exec`, `globals`,
`locals`) is rejected with `SecurityViolation` on all three reflection
commands — as the attribute name, as the method name, and as the last
dotted component of a `call_function` target (provided the arguments decode,
which happens first) — and a leading-underscore name is rejected on
`get_attribute`.  In each case the object stores are untouched and the
ambient runtime (reflection) is never consulted: the result is the same for
every `env`.  (As stated the claim is false: leading-underscore method names
and call targets are NOT rejected — see the counterexample.) -/
theorem claim_c3_security_policy (env : PyEnv) (w : WState) (rq : Option String)
    (sid : String) :
    (∀ (t : Target) (name : String), startsWithUnderscore name = true →
      handleGetAttribute env rq sid t name w =
        (.ok (.error rq ⟨"SecurityViolation", Option.none,
          "Access to private attributes is forbidden"⟩), w)) ∧
    (∀ (t : Target) (name : String), isForbiddenName name = true →
      handleGetAttribute env rq sid t name w =
        (.ok (.error rq ⟨"SecurityViolation", Option.none,
          "Forbidden attribute access: " ++ name⟩), w)) ∧
    (∀ (t : Target) (method : String) (args : List TnkValue)
        (kwargs : List (String × TnkValue)) (da : List Py) (w1 : WState)
        (dk : List (String × Py)) (w2 : WState),
      isForbiddenName method = true →
      decodeItems args sid w = (.ok da, w1) →
      decodeKwargs kwargs sid w1 = (.ok dk, w2) →
      handleCallMethod env rq sid t method args kwargs w =
        (.ok (.error rq ⟨"SecurityViolation", Option.none,
          "Forbidden method call: " ++ method⟩), w2) ∧
      ∀ sid2, objectsOf w2.store sid2 = objectsOf w.store sid2) ∧
    (∀ (target : String) (args : List TnkValue) (kwargs : List (String × TnkValue))
        (da : List Py) (w1 : WState) (dk : List (String × Py)) (w2 : WState),
      isForbiddenTarget target = true →
      decodeItems args sid w = (.ok da, w1) →
      decodeKwargs kwargs sid w1 = (.ok dk, w2) →
      handleCallFunction env rq sid target args kwargs w =
        (.ok (.error rq ⟨"SecurityViolation", Option.none,
          "Forbidden function call: " ++ target⟩), w2) ∧
      ∀ sid2, objectsOf w2.store sid2 = objectsOf w.store sid2) := by
  refine ⟨?_, ?_, ?_, ?_⟩
  · intro t name h
    simp [handleGetAttribute, h]
  · intro t name h
    simp [handleGetAttribute, forbidden_not_underscore name h, h]
  · intro t method args kwargs da w1 dk w2 hm hargs hkw
    refine ⟨by simp [handleCallMethod, hargs, hkw, hm], ?_⟩
    intro sid2
    have h1 := (decodeItems_store args sid w sid2).1
    have h2 := (decodeKwargs_store kwargs sid w1 sid2).1
    rw [hargs] at h1
    rw [hkw] at h2
    simp only at h1 h2
    rw [h2, h1]
  · intro target args kwargs da w1 dk w2 ht hargs hkw
    refine ⟨by simp [handleCallFunction, hargs, hkw, ht], ?_⟩
    intro sid2
    have h1 := (decodeItems_store args sid w sid2).1
    have h2 := (decodeKwargs_store kwargs sid w1 sid2).1
    rw [hargs] at h1
    rw [hkw] at h2
    simp only at h1 h2
    rw [h2, h1]

/-- Witness for C3 (amended), at concrete requests: `_x` and `eval` as
attribute names, `exec` as a method name, `builtins.eval` as a function
target. -/
theorem claim_c3_security_policy_witness :
    (handleGetAttribute envNone Option.none "s" (Target.handleId "h1") "_x" ⟨[], 0⟩ =
      (.ok (.error Option.none ⟨"SecurityViolation", Option.none,
        "Access to private attributes is forbidden"⟩), ⟨[], 0⟩)) ∧
    (handleGetAttribute envNone Option.none "s" (Target.handleId "h1") "eval" ⟨[], 0⟩ =
      (.ok (.error Option.none ⟨"SecurityViolation", Option.none,
        "Forbidden attribute access: eval"⟩), ⟨[], 0⟩)) ∧
    (handleCallMethod envNone Option.none "s" (Target.handleId "h1") "exec" [] [] ⟨[], 0⟩ =
      (.ok (.error Option.none ⟨"SecurityViolation", Option.none,
        "Forbidden method call: exec"⟩), ⟨[], 0⟩)) ∧
    (handleCallFunction envNone Option.none "s" "builtins.eval" [] [] ⟨[], 0⟩ =
      (.ok (.error Option.none ⟨"SecurityViolation", Option.none,
        "Forbidden function call: builtins.eval"⟩), ⟨[], 0⟩)) :=
  ⟨(claim_c3_security_policy envNone ⟨[], 0⟩ Option.none "s").1
      (Target.handleId "h1") "_x" (by decide),
   (claim_c3_security_policy envNone ⟨[], 0⟩ Option.none "s").2.1
      (Target.handleId "h1") "eval" rfl,
   ((claim_c3_security_policy envNone ⟨[], 0⟩ Option.none "s").2.2.1
      (Target.handleId "h1") "exec" [] [] [] ⟨[], 0⟩ [] ⟨[], 0⟩ rfl rfl rfl).1,
   ((claim_c3_security_policy envNone ⟨[], 0⟩ Option.none "s").2.2.2
      "builtins.eval" [] [] [] ⟨[], 0⟩ [] ⟨[], 0⟩ (by decide) rfl rfl).1⟩

/-- C4 (amended): a handle id absent from the requesting session's store (in
particular any handle created in a different session, since ids are unique)
is answered `StaleHandle` when it is the request's DIRECT target — for
`call_method` (with decodable args and a non-forbidden method),
`get_attribute` (with a non-underscore, non-forbidden name), `get_item`
(with a decodable key), `slice` (with decodable bounds and non-zero step),
`iter`, and `iter_next_batch` — and in every such case the object stores of
all sessions are unchanged.  But when the stale handle sits NESTED inside
the args, `decode_value` raises `KeyError` outside the handler's `try` and
the main loop answers `WorkerCrash` instead (stores again unchanged). -/
theorem claim_c4_stale_handle (env : PyEnv) (w : WState) (rq : Option String)
    (sid hid : String) (hmiss : (objectsOf w.store sid).lookup hid = Option.none) :
    (∀ (method : String) (args : List TnkValue) (kwargs : List (String × TnkValue))
        (da : List Py) (w1 : WState) (dk : List (String × Py)) (w2 : WState),
      isForbiddenName method = false →
      decodeItems args sid w = (.ok da, w1) →
      decodeKwargs kwargs sid w1 = (.ok dk, w2) →
      handleCallMethod env rq sid (.handleId hid) method args kwargs w =
        (.ok (.error rq ⟨"StaleHandle", Option.none, "StaleHandle: " ++ hid⟩),
         ⟨ensureSession w2.store sid, w2.fresh⟩) ∧
      ∀ sid2, objectsOf (ensureSession w2.store sid) sid2 = objectsOf w.store sid2) ∧
    (∀ (name : String), startsWithUnderscore name = false → isForbiddenName name = false →
      handleGetAttribute env rq sid (.handleId hid) name w =
        (.ok (.error rq ⟨"StaleHandle", Option.none, "StaleHandle: " ++ hid⟩),
         ⟨ensureSession w.store sid, w.fresh⟩)) ∧
    (∀ (key : TnkValue) (kv : Py) (w1 : WState),
      decodeValue key sid w = (.ok kv, w1) →
      handleGetItem env rq sid (.handleId hid) key w =
        (.ok (.error rq ⟨"StaleHandle", Option.none, "StaleHandle: " ++ hid⟩),
         ⟨ensureSession w1.store sid, w1.fresh⟩) ∧
      ∀ sid2, objectsOf (ensureSession w1.store sid) sid2 = objectsOf w.store sid2) ∧
    (∀ (a b c : TnkValue) (va vb vc : Py) (w1 w2 w3 : WState),
      decodeSliceArg a sid w = (.ok va, w1) →
      decodeSliceArg b sid w1 = (.ok vb, w2) →
      decodeSliceArg c sid w2 = (.ok vc, w3) →
      pyEqZero vc = false →
      handleSlice env rq sid hid a b c w =
        (.ok (.error rq ⟨"StaleHandle", Option.none, "Handle " ++ hid ++ " not found"⟩),
         ⟨ensureSession w3.store sid, w3.fresh⟩) ∧
      ∀ sid2, objectsOf (ensureSession w3.store sid) sid2 = objectsOf w.store sid2) ∧
    (handleIter env rq sid hid w =
      (.ok (.error rq ⟨"StaleHandle", Option.none, "Handle " ++ hid ++ " not found"⟩),
       ⟨ensureSession w.store sid, w.fresh⟩)) ∧
    (∀ (b : Option Int),
      handleIterNextBatch rq sid hid b w =
        (.ok (.error rq ⟨"StaleHandle", Option.none, "Handle " ++ hid ++ " not found"⟩),
         ⟨ensureSession w.store sid, w.fresh⟩)) ∧
    (∀ (t : Target) (method : String) (hty hrep hstr : String) (hsid : Option String)
        (rest : List TnkValue) (kwargs : List (String × TnkValue)),
      processLine env (Line.request (Cmd.callMethod rq sid t method
          (TnkValue.handle hid hty hrep hstr hsid :: rest) kwargs)) w =
        (some (Resp.error Option.none ⟨"WorkerCrash", Option.none,
          "\x27" ++ ("StaleHandle: " ++ hid ++ " (Session: " ++ sid ++ ")") ++ "\x27"⟩),
         ⟨ensureSession w.store sid, w.fresh⟩) ∧
      ∀ sid2, objectsOf (ensureSession w.store sid) sid2 = objectsOf w.store sid2) := by
  have hensure : ∀ sid2, objectsOf (ensureSession w.store sid) sid2 = objectsOf w.store sid2 :=
    fun sid2 => objectsOf_ensureSession w.store sid sid2
  have hlookw : (objectsOf (ensureSession w.store sid) sid).lookup hid = Option.none := by
    rw [objectsOf_ensureSession]; exact hmiss
  refine ⟨?_, ?_, ?_, ?_, ?_, ?_, ?_⟩
  · intro method args kwargs da w1 dk w2 hm hargs hkw
    have h1 := (decodeItems_store args sid w sid).1
    have h2 := (decodeKwargs_store kwargs sid w1 sid).1
    rw [hargs] at h1; rw [hkw] at h2
    simp only at h1 h2
    have hobj : objectsOf w2.store sid = objectsOf w.store sid := by rw [h2, h1]
    have hlook : (objectsOf (ensureSession w2.store sid) sid).lookup hid = Option.none := by
      rw [objectsOf_ensureSession, hobj]; exact hmiss
    constructor
    · simp [handleCallMethod, hargs, hkw, hm, resolveTarget, hlook, excStr,
        containsStale_colon]
    · intro sid2
      have h1b := (decodeItems_store args sid w sid2).1
      have h2b := (decodeKwargs_store kwargs sid w1 sid2).1
      rw [hargs] at h1b; rw [hkw] at h2b
      simp only at h1b h2b
      rw [objectsOf_ensureSession, h2b, h1b]
  · intro name hu hf
    simp [handleGetAttribute, hu, hf, resolveTarget, hlookw, excStr, containsStale_colon]
  · intro key kv w1 hkey
    have h1 := (decodeValue_store key sid w sid).1
    rw [hkey] at h1
    simp only at h1
    have hlook : (objectsOf (ensureSession w1.store sid) sid).lookup hid = Option.none := by
      rw [objectsOf_ensureSession, h1]; exact hmiss
    constructor
    · simp [handleGetItem, hkey, resolveTarget, hlook, excStr, containsStale_colon]
    · intro sid2
      have h1b := (decodeValue_store key sid w sid2).1
      rw [hkey] at h1b
      simp only at h1b
      rw [objectsOf_ensureSession, h1b]
  · intro a b c va vb vc w1 w2 w3 ha hb hc hz
    have h1 := (decodeSliceArg_store a sid w sid).1
    have h2 := (decodeSliceArg_store b sid w1 sid).1
    have h3 := (decodeSliceArg_store c sid w2 sid).1
    rw [ha] at h1; rw [hb] at h2; rw [hc] at h3
    simp only at h1 h2 h3
    have hlook : (objectsOf (ensureSession w3.store sid) sid).lookup hid = Option.none := by
      rw [objectsOf_ensureSession, h3, h2, h1]; exact hmiss
    constructor
    · simp [handleSlice, ha, hb, hc, hz, hlook]
    · intro sid2
      have h1b := (decodeSliceArg_store a sid w sid2).1
      have h2b := (decodeSliceArg_store b sid w1 sid2).1
      have h3b := (decodeSliceArg_store c sid w2 sid2).1
      rw [ha] at h1b; rw [hb] at h2b; rw [hc] at h3b
      simp only at h1b h2b h3b
      rw [objectsOf_ensureSession, h3b, h2b, h1b]
  · simp [handleIter, hlookw]
  · intro b
    simp [handleIterNextBatch, hlookw]
  · intro t method hty hrep hstr hsid rest kwargs
    constructor
    · simp [processLine, processCmd, handleCallMethod, decodeItems, decodeValue, hlookw,
        excStr]
    · exact hensure

/-- Witness for C4 (amended): handle `h1` lives in session `s1`; session `s`
addresses it directly via `call_method` and `iter` and receives
`StaleHandle` with stores unchanged. -/
theorem claim_c4_stale_handle_witness :
    ((objectsOf ([("s1", [("h1", Py.int 7)]), ("s", [])] : Store) "s").lookup "h1"
      = Option.none) ∧
    handleCallMethod envNone Option.none "s" (Target.handleId "h1") "copy" [] []
        ⟨[("s1", [("h1", Py.int 7)]), ("s", [])], 0⟩ =
      (.ok (.error Option.none ⟨"StaleHandle", Option.none, "StaleHandle: h1"⟩),
       ⟨[("s1", [("h1", Py.int 7)]), ("s", [])], 0⟩) ∧
    handleIter envNone Option.none "s" "h1" ⟨[("s1", [("h1", Py.int 7)]), ("s", [])], 0⟩ =
      (.ok (.error Option.none ⟨"StaleHandle", Option.none, "Handle h1 not found"⟩),
       ⟨[("s1", [("h1", Py.int 7)]), ("s", [])], 0⟩) :=
  ⟨rfl,
   ((claim_c4_stale_handle envNone ⟨[("s1", [("h1", Py.int 7)]), ("s", [])], 0⟩
      Option.none "s" "h1" rfl).1 "copy" [] [] []
      ⟨[("s1", [("h1", Py.int 7)]), ("s", [])], 0⟩ []
      ⟨[("s1", [("h1", Py.int 7)]), ("s", [])], 0⟩ rfl rfl rfl).1,
   (claim_c4_stale_handle envNone ⟨[("s1", [("h1", Py.int 7)]), ("s", [])], 0⟩
      Option.none "s" "h1" rfl).2.2.2.2.1⟩

theorem isPrimLikeList_take (xs : List Py) (n : Nat) (h : isPrimLikeList xs = true) :
    isPrimLikeList (xs.take n) = true := by
  induction xs generalizing n with
  | nil => cases n <;> simp [List.take, isPrimLikeList]
  | cons x rest ih =>
      cases n with
      | zero => rfl
      | succ m =>
          simp only [List.take_succ_cons, isPrimLikeList, Bool.and_eq_true] at h ⊢
          exact ⟨h.1, ih m h.2⟩

theorem isPrimLikeList_drop (xs : List Py) (n : Nat) (h : isPrimLikeList xs = true) :
    isPrimLikeList (xs.drop n) = true := by
  induction xs generalizing n with
  | nil => cases n <;> simp [List.drop, isPrimLikeList]
  | cons x rest ih =>
      cases n with
      | zero => exact h
      | succ m =>
          simp only [isPrimLikeList, Bool.and_eq_true] at h
          simpa using ih m h.2

theorem encWireList_append (a b : List Py) :
    encWireList (a ++ b) = encWireList a ++ encWireList b := by
  induction a with
  | nil => rfl
  | cons x rest ih => simp [encWireList, ih]

theorem encWireList_length (xs : List Py) : (encWireList xs).length = xs.length := by
  induction xs with
  | nil => rfl
  | cons x rest ih => simp [encWireList, ih]

theorem iterNextBatch_step (rq : Option String) (sid tid : String) (bi : Option Int)
    (elems : List Py) (os : Objects) (w : WState)
    (hs : w.store.lookup sid = some os)
    (ho : os.lookup tid = some (Py.iterator elems))
    (hp : isPrimLikeList elems = true) :
    handleIterNextBatch rq sid tid bi w =
      (.ok (.ok rq (some (.list (encWireList (elems.take (bi.getD 1000).toNat))))
        (some (decide (elems.length < (bi.getD 1000).toNat)))),
       ⟨setObjects w.store sid
          (assocSet os tid (Py.iterator (elems.drop (bi.getD 1000).toNat))),
        w.fresh⟩) := by
  have hE : ensureSession w.store sid = w.store := ensureSession_of_present _ _ _ hs
  have hO : objectsOf w.store sid = os := objectsOf_eq_of_lookup _ _ _ hs
  have henc := encode_prim_list (elems.take (bi.getD 1000).toNat)
    (isPrimLikeList_take _ _ hp) sid ⟨w.store, w.fresh⟩
  simp [handleIterNextBatch, hE, hO, ho, henc]

/-- C6 (amended, for batch sizes of at least 1): driving `iter_next_batch`
until `done` on a live iterator over `n` primitive elements yields, per
response, at most `B` encoded elements; the concatenation of all returned
elements is exactly the encoding of the source sequence; `done = true` is
emitted exactly once, on the final call (the one during which the iterator
raises `StopIteration`, i.e. the first call with fewer than `B` elements
left); and an empty sequence gets zero elements with `done = true` on the
very first call.  (For batch size 0 the claim fails; see the
counterexample.) -/
theorem claim_c6_iter_batches (rq : Option String) (sid tid : String) (B : Int)
    (hB : 1 ≤ B) :
    ∀ (fuel : Nat) (elems : List Py) (os : Objects) (w : WState),
      isPrimLikeList elems = true →
      w.store.lookup sid = some os →
      os.lookup tid = some (Py.iterator elems) →
      elems.length < fuel →
      (∀ r ∈ (driveIter rq sid tid (some B) fuel w).1, r.1.length ≤ B.toNat) ∧
      ((driveIter rq sid tid (some B) fuel w).1.map Prod.fst).flatten = encWireList elems ∧
      (driveIter rq sid tid (some B) fuel w).1.map Prod.snd =
        List.replicate ((driveIter rq sid tid (some B) fuel w).1.length - 1) false ++
          [true] ∧
      (elems = [] → (driveIter rq sid tid (some B) fuel w).1 = [([], true)]) := by
  have hB1 : 1 ≤ B.toNat := by omega
  intro fuel
  induction fuel with
  | zero => intro elems os w _ _ _ hlen; omega
  | succ k ih =>
      intro elems os w hp hs ho hlen
      have hstep := iterNextBatch_step rq sid tid (some B) elems os w hs ho hp
      simp only [Option.getD_some] at hstep
      by_cases hlt : elems.length < B.toNat
      · have htake : elems.take B.toNat = elems := List.take_of_length_le (by omega)
        have hres : (driveIter rq sid tid (some B) (k + 1) w).1 =
            [(encWireList elems, true)] := by
          simp [driveIter, hstep, hlt, htake]
        refine ⟨?_, ?_, ?_, ?_⟩
        · intro r hr
          rw [hres] at hr
          simp only [List.mem_singleton] at hr
          subst hr
          simp [encWireList_length]
          omega
        · rw [hres]; simp
        · rw [hres]; simp
        · intro he
          rw [hres, he]
          rfl
      · have hlen1 : (elems.drop B.toNat).length < k := by
          simp only [List.length_drop]
          omega
        have hs1 : (setObjects w.store sid
            (assocSet os tid (Py.iterator (elems.drop B.toNat)))).lookup sid =
            some (assocSet os tid (Py.iterator (elems.drop B.toNat))) := by
          rw [lookup_setObjects, hs]; simp
        have ho1 : (assocSet os tid (Py.iterator (elems.drop B.toNat))).lookup tid =
            some (Py.iterator (elems.drop B.toNat)) := by
          rw [lookup_assocSet]; simp
        have hrec := ih (elems.drop B.toNat) _
          ⟨setObjects w.store sid (assocSet os tid (Py.iterator (elems.drop B.toNat))),
           w.fresh⟩
          (isPrimLikeList_drop _ _ hp) hs1 ho1 hlen1
        obtain ⟨ih1, ih2, ih3, _⟩ := hrec
        have hres : (driveIter rq sid tid (some B) (k + 1) w).1 =
            (encWireList (elems.take B.toNat), false) ::
              (driveIter rq sid tid (some B) k
                ⟨setObjects w.store sid
                   (assocSet os tid (Py.iterator (elems.drop B.toNat))), w.fresh⟩).1 := by
          simp [driveIter, hstep, hlt]
        have hrest1 : 1 ≤ (driveIter rq sid tid (some B) k
            ⟨setObjects w.store sid
               (assocSet os tid (Py.iterator (elems.drop B.toNat))), w.fresh⟩).1.length := by
          have hlenmap := congrArg List.length ih3
          simp only [List.length_map, List.length_append, List.length_replicate,
            List.length_singleton] at hlenmap
          omega
        refine ⟨?_, ?_, ?_, ?_⟩
        · intro r hr
          rw [hres] at hr
          rcases List.mem_cons.mp hr with hr | hr
          · subst hr
            simp [encWireList_length]
          · exact ih1 r hr
        · rw [hres]
          simp only [List.map_cons, List.flatten_cons, ih2]
          rw [← encWireList_append, List.take_append_drop]
        · rw [hres]
          simp only [List.map_cons, ih3, List.length_cons]
          have : (driveIter rq sid tid (some B) k
              ⟨setObjects w.store sid
                 (assocSet os tid (Py.iterator (elems.drop B.toNat))), w.fresh⟩).1.length =
              ((driveIter rq sid tid (some B) k
                ⟨setObjects w.store sid
                   (assocSet os tid (Py.iterator (elems.drop B.toNat))), w.fresh⟩).1.length
                - 1) + 1 := by omega
          rw [this]
          simp [List.replicate_succ]
        · intro he
          subst he
          simp at hlt
          omega

/-- Witness for C6 (amended): three elements, batch size 2 — the two
responses return the whole sequence and `done` fires exactly on the second
call. -/
theorem claim_c6_iter_batches_witness :
    (1 : Int) ≤ 2 ∧
    (((driveIter Option.none "s" "it" (some 2) 4
        ⟨[("s", [("it", Py.iterator [Py.int 1, Py.int 2, Py.int 3])])], 0⟩).1.map
        Prod.fst).flatten = encWireList [Py.int 1, Py.int 2, Py.int 3]) ∧
    ((driveIter Option.none "s" "it" (some 2) 4
        ⟨[("s", [("it", Py.iterator [Py.int 1, Py.int 2, Py.int 3])])], 0⟩).1.map
        Prod.snd =
      List.replicate ((driveIter Option.none "s" "it" (some 2) 4
        ⟨[("s", [("it", Py.iterator [Py.int 1, Py.int 2, Py.int 3])])], 0⟩).1.length - 1)
        false ++ [true]) :=
  ⟨by decide,
   (claim_c6_iter_batches Option.none "s" "it" 2 (by decide) 4
      [Py.int 1, Py.int 2, Py.int 3] [("it", Py.iterator [Py.int 1, Py.int 2, Py.int 3])]
      ⟨[("s", [("it", Py.iterator [Py.int 1, Py.int 2, Py.int 3])])], 0⟩
      rfl rfl rfl (by decide)).2.1,
   (claim_c6_iter_batches Option.none "s" "it" 2 (by decide) 4
      [Py.int 1, Py.int 2, Py.int 3] [("it", Py.iterator [Py.int 1, Py.int 2, Py.int 3])]
      ⟨[("s", [("it", Py.iterator [Py.int 1, Py.int 2, Py.int 3])])], 0⟩
      rfl rfl rfl (by decide)).2.2.1⟩
